import Mathlib

/-!
Verification of the bmon terminal bandwidth monitor (C++ sources) against its
natural-language specification.  The C++ code is shallowly embedded: machine
integers become `Nat` with explicit `% 2^64` where overflow matters, timestamps
become `Nat` (milliseconds or seconds since an epoch), strings become Lean
`String`/`List Char`, and the stateful `TimeSeries` object becomes a record
with explicit state passing.
-/

set_option maxHeartbeats 1000000

namespace Bmon

/-! ## TimeSeries (src/sampling/time_series.hpp)

The repository ships only the declaration of `class TimeSeries` (its defining
`time_series.cpp` is not under src/), so the operational behaviour below is
modelled from the spec. -/

/-- Modelled from the spec: `time_series.cpp` (the definitions of the members
declared in `src/sampling/time_series.hpp`) is missing from src/.  Per the
spec, a `TimeSeries` "owns a fixed-length ordered sequence of u64 slots, a
sampling interval, and a start instant"; capacity is fixed at construction.
The slot array is embedded as a total function `storage : Nat → Nat` (only
indices `< capacity` are ever addressed, all arithmetic on slot indices is
taken `% capacity`); `lastPos` is the ring position of the most recent write
(mirroring the `max_key_` member of the C++ header, initially `0`).
Timestamps are naturals (milliseconds since the epoch); `interval` is the
sampling interval in the same unit. -/
structure TimeSeries where
  interval : Nat
  start : Nat
  capacity : Nat
  storage : Nat → Nat
  lastPos : Nat

/-- Modelled from the spec: constructor `TimeSeries(Ms interval, TimePoint
start)` plus the spec's "capacity is fixed at construction"; the ring starts
default-initialized (all slots zero, per the spec `get` "returns the raw
stored magnitude (0 if never written, i.e., default-initialized ring)"). -/
def TimeSeries.new (interval start capacity : Nat) : TimeSeries :=
  { interval := interval
    start := start
    capacity := capacity
    storage := fun _ => 0
    lastPos := 0 }

/-- Modelled from the spec: "A 'key' is the slot index derived from a
timestamp: `key = floor((timestamp - start) / interval) mod capacity`"
(spec section 3), declared as `std::size_t calculate_key(TimePoint tp)` in the
header. -/
def TimeSeries.calculate_key (ts : TimeSeries) (tp : Nat) : Nat :=
  ((tp - ts.start) / ts.interval) % ts.capacity

/-- Modelled from the spec: the inverse key derivation `calculate_key(index)
-> timestamp` (declared as the overload `TimePoint calculate_key(std::size_t
index)` in the header): the timestamp at which slot `index`'s interval window
begins, i.e. `start + index * interval`. -/
def TimeSeries.calculate_key_inv (ts : TimeSeries) (index : Nat) : Nat :=
  ts.start + index * ts.interval

/-- Modelled from the spec: `set_key(key, value)` writes `value` into ring
slot `key` (last-writer-wins, no aggregation) and records the write position
(the `max_key_` member of the header). -/
def TimeSeries.set_key (ts : TimeSeries) (key value : Nat) : TimeSeries :=
  { ts with
    storage := fun p => if p = key then value else ts.storage p
    lastPos := key }

/-- Modelled from the spec: `set(timestamp, value)` "computes
`key(timestamp)`, writes `value` into that ring slot". -/
def TimeSeries.set (ts : TimeSeries) (tp value : Nat) : TimeSeries :=
  ts.set_key (ts.calculate_key tp) value

/-- Modelled from the spec: `get_key(key)` reads the ring slot. -/
def TimeSeries.get_key (ts : TimeSeries) (key : Nat) : Nat :=
  ts.storage key

/-- Modelled from the spec: `get(timestamp)` "reads the ring slot for the
computed key; returns the raw stored magnitude (0 if never written)". -/
def TimeSeries.get (ts : TimeSeries) (tp : Nat) : Nat :=
  ts.get_key (ts.calculate_key tp)

/-- Modelled from the spec: `get_slice_from_end(length)` "returns an ordered
sequence of the most recent `length` magnitudes ending at 'now' (the most
recent write position), oldest first".  Entry `i` (for `i < len`) is the slot
at ring position `lastPos + 1 + i - len (mod capacity)`; the term
`capacity * (len + 1)` only lifts the subtraction out of `Nat` truncation and
vanishes modulo `capacity`.  Never-written slots read as zero (the ring is
default-initialized), which realises the spec's "the missing leading entries
are zero". -/
def TimeSeries.get_slice_from_end (ts : TimeSeries) (len : Nat) : List Nat :=
  (List.range len).map (fun i =>
    ts.storage ((ts.lastPos + ts.capacity * (len + 1) + 1 + i - len) % ts.capacity))

/-- Writes `count` sequential samples into a time series: the k-th write
carries value `v k` and the timestamp of the k-th interval boundary
(`start + k * interval`), exactly the cadence of the driver loop, which calls
`set` once per elapsed interval. -/
def writeSeq (ts : TimeSeries) (v : Nat → Nat) : Nat → TimeSeries
  | 0 => ts
  | k + 1 => (writeSeq ts v k).set (ts.start + k * ts.interval) (v k)

/-! ## Driver loop and process exit (time_series.hpp lines 72-232: the
concatenated `main.cpp` of the termui build) -/

/-- Display states of the driver loop (`enum class DisplayMode`). -/
inductive DisplayMode where
  | DISPLAY_RX
  | DISPLAY_TX
  deriving DecidableEq, Repr

/-- Embedding of `read_input` (time_series.hpp lines 80-101).  The available
stdin bytes are the list argument (end of list = `fgetc` returning `EOF`).
`fgetc`'s result is stored into a `char`, so a byte `>= 128` becomes negative
and terminates the `while (ch >= 0)` loop just like `EOF` does.  The returned
pair is the function's value (`std::optional<DisplayMode>`) together with the
number of `surface.on_carriage_return()` redraw calls performed.  The sleep
at the top of the C++ function has no bearing on the input handling and is
not modelled. -/
def read_input : List Nat → Option DisplayMode × Nat
  | [] => (none, 0)
  | b :: rest =>
    if 128 ≤ b % 256 then (none, 0)
    else if b % 256 = 10 then
      let r := read_input rest
      (r.1, r.2 + 1)
    else if b % 256 = 114 then (some DisplayMode.DISPLAY_RX, 0)
    else if b % 256 = 116 then (some DisplayMode.DISPLAY_TX, 0)
    else read_input rest

/-- Embedding of the `uint64_t` subtraction `sample.rx - prev_sample.rx`
(time_series.hpp line 143 in `display_bar_chart`, likewise `main.cpp` lines
30-33 in `collect`): two's-complement wraparound modulo `2^64` for operands
below `2^64`. -/
def u64_sub (cur prev : Nat) : Nat :=
  (cur + (2 ^ 64 - prev % 2 ^ 64)) % 2 ^ 64

/-- Possible outcomes of `bmon::termui::run` as observed by the `try`/`catch`
in `main` (time_series.hpp lines 202-232): the run returns normally, throws
`InterruptException` (the SIGINT handler's unwind), throws a `std::exception`,
or throws anything else. -/
inductive RunOutcome where
  | normal
  | interrupted
  | exceptionFailure
  | unknownFailure
  deriving DecidableEq, Repr

/-- Embedding of `main`'s exit status (time_series.hpp lines 202-232):
`argc < 2` prints usage and `exit(EXIT_FAILURE)` (glibc `EXIT_FAILURE = 1`);
otherwise `run` is invoked and: `InterruptException` falls through to
`return 0`, a `std::exception` or the catch-all `exit(EXIT_FAILURE)`, and a
normal return reaches `return 0`.  `args` is `argv` (so it includes the
program name), `outcome` the behaviour of `run`. -/
def mainExit (args : List String) (outcome : RunOutcome) : Nat :=
  if args.length < 2 then 1
  else
    match outcome with
    | RunOutcome.normal => 0
    | RunOutcome.interrupted => 0
    | RunOutcome.exceptionFailure => 1
    | RunOutcome.unknownFailure => 1

/-! ## Formatter (src/termui/formatter.cpp) -/

/-- Modelled from the spec: the `units_` member of `Formatter` lives in the
missing `formatter.hpp`; per the spec, units are "binary-scaled (1024 per
step: bytes, kilobytes, megabytes, ...)" with labels `b` and `Kb` fixed by
the spec's examples.  The list is given here already reversed, i.e. in the
order the `for (auto it = units_.rbegin(); it != units_.rend(); ++it)` loop
of `format_num_byte_rate` visits it (largest exponent first). -/
def unitsDesc : List (Nat × String) :=
  [(40, "Tb"), (30, "Gb"), (20, "Mb"), (10, "Kb"), (0, "b")]

/-- Embedding of the unit-selection loop of `format_num_byte_rate`
(formatter.cpp lines 13-33): walk the units from the largest exponent down;
on the first unit whose shifted value is nonzero take `int_part = num >> e`,
`unit` that unit's label and, when `e >= 10`,
`dec_part = (num >> (e - 10)) - (int_part << 10)` (a base-1024 fractional
component in `0..1023`; the C++ `uint64_t` subtraction never underflows here
so plain `Nat` subtraction is exact).  If the loop finishes without a break
the C++ locals keep their initial values `(0, 0, "b")`.  Result:
`(int_part, dec_part, unit)`. -/
def pickUnit : List (Nat × String) → Nat → Nat × Nat × String
  | [], _ => (0, 0, "b")
  | (e, u) :: rest, num =>
    let val := num >>> e
    if 0 < val then
      (val, if 10 ≤ e then (num >>> (e - 10)) - (val <<< 10) else 0, u)
    else pickUnit rest num

/-- Three-digit zero-padded decimal rendering of `n < 1000`, as `std::fixed`
with `precision(3)` renders the fractional digits. -/
def zfill3 (n : Nat) : List Char :=
  [Nat.digitChar (n / 100 % 10), Nat.digitChar (n / 10 % 10), Nat.digitChar (n % 10)]

/-- Embedding of the fixed-point rendering `sd.precision(3); sd << std::fixed
<< reconstructed` (formatter.cpp lines 45-49) where `reconstructed =
F64(int_part) + F64(dec_part) / 1000.0`.  The exact value is
`(int_part * 1000 + dec_part) / 1000`; for the magnitudes the formatter can
produce (`int_part < 2^24`, `dec_part <= 1023`) the `double` computation is
within `2^-19` of that exact value, so rounding it to three decimals prints
exactly the decimal expansion of the exact value, which is what this
definition produces. -/
def fixed3 (int_part dec_part : Nat) : String :=
  let total := int_part * 1000 + dec_part
  toString (total / 1000) ++ "." ++ String.mk (zfill3 (total % 1000))

/-- Embedding of the truncation logic of `format_num_byte_rate`
(formatter.cpp lines 38-61): a zero decimal part prints the bare integer;
otherwise the fixed-point rendering is cut by `substr` — to 4 characters when
`reconstructed >= 1000`, to 3 when `reconstructed >= 100`, else to 4.  The
`double` comparisons translate exactly to `int_part * 1000 + dec_part >=
1000000` resp. `>= 100000` (the exact value is a multiple of `1/1000`, the
thresholds are too, and the floating-point error is far below `1/2000`).
`substr` counts bytes, and every character involved is ASCII, so it is
`List.take` on the character data. -/
def displayNum (int_part dec_part : Nat) : String :=
  if dec_part = 0 then toString int_part
  else
    let formatted := fixed3 int_part dec_part
    if 1000000 ≤ int_part * 1000 + dec_part then String.mk (formatted.data.take 4)
    else if 100000 ≤ int_part * 1000 + dec_part then String.mk (formatted.data.take 3)
    else String.mk (formatted.data.take 4)

/-- Embedding of `ss << std::setw(4); ss << truncated` (formatter.cpp lines
63-65): right-align the numeric field to a minimum width of 4 by left-padding
with spaces. -/
def setw4 (s : String) : String :=
  String.mk (List.replicate (4 - s.length) ' ' ++ s.data)

/-- Embedding of `Formatter::format_num_byte_rate` (formatter.cpp lines
11-67): select the unit, render the (possibly truncated) numeric field,
right-align it to width 4 and glue `" <unit>/<time_unit>"` behind it. -/
def format_num_byte_rate (num : Nat) (time_unit : String) : String :=
  let r := pickUnit unitsDesc num
  setw4 (displayNum r.1 r.2.1) ++ " " ++ r.2.2 ++ "/" ++ time_unit

/-- Follows the spec's words: the unit chosen is "the largest unit for which
the magnitude's integer part under that scale is nonzero" — the integer part
`num >> e` is nonzero exactly when `2^e ≤ num`.  Stated independently of the
selection loop so that the loop can be proved against it. -/
def unitOfMagnitude (num : Nat) : String :=
  if 2 ^ 40 ≤ num then "Tb"
  else if 2 ^ 30 ≤ num then "Gb"
  else if 2 ^ 20 ≤ num then "Mb"
  else if 2 ^ 10 ≤ num then "Kb"
  else "b"

/-! ## Time axis (formatter.cpp lines 93-157) -/

/-- Embedding of `get_seconds` (formatter.cpp lines 93-98): the seconds-of-
minute of a timestamp.  Timestamps are embedded as epoch seconds; every real
timezone offset is a whole number of minutes, so `localtime(tt).tm_sec` is
`tt % 60`. -/
def get_seconds (tp : Nat) : Nat :=
  tp % 60

/-- Embedding of `format_ss` (formatter.cpp lines 100-106): the seconds-of-
minute rendered with `setfill('0') << setw(2)`, i.e. two-digit zero-padded
(exact since `get_seconds tp < 60 < 100`). -/
def format_ss (tp : Nat) : List Char :=
  [Nat.digitChar (get_seconds tp / 10 % 10), Nat.digitChar (get_seconds tp % 10)]

/-- Embedding of the loop body of `Formatter::format_xaxis` (formatter.cpp
lines 127-154).  The first argument is the live value of `chars_to_skip`, the
second the remaining points; `rest.length` is exactly the C++
`num_chars_after_this_one = points.size() - 1 - i`.  A positive skip count
consumes the point without output; otherwise a point whose seconds-of-minute
is divisible by 4, with at least one point after it, emits the two-digit tick
and sets the skip counter to 1; every other point emits a single blank. -/
def xaxisGo : Nat → List Nat → List Char
  | _, [] => []
  | skip + 1, _ :: rest => xaxisGo skip rest
  | 0, tp :: rest =>
    if get_seconds tp % 4 = 0 ∧ 1 ≤ rest.length then
      format_ss tp ++ xaxisGo 1 rest
    else ' ' :: xaxisGo 0 rest

/-- Embedding of `Formatter::format_xaxis` (formatter.cpp lines 117-157):
run the loop with `chars_to_skip = 0`. -/
def format_xaxis (points : List Nat) : List Char :=
  xaxisGo 0 points

/-- Consecutive per-second timestamps `[t, t+1, ..., t+n-1]`, one per
terminal column, oldest to newest — the sequence the driver hands to
`format_xaxis` (one sample per second, one column per sample). -/
def secondsSeq (t : Nat) : Nat → List Nat
  | 0 => []
  | n + 1 => t :: secondsSeq (t + 1) n

/-- Follows the spec's words (section 4.4), restricted to consecutive
per-second timestamps: every point whose seconds-of-minute is divisible by 4
prints its two-digit zero-padded seconds value at its column provided at
least one column remains to its right, the tick consuming two character
cells (its own column and the following one, which therefore receives no
output of its own); every other column is a single blank. -/
def axisSpec : Nat → Nat → List Char
  | _, 0 => []
  | _, 1 => [' ']
  | t, n + 2 =>
    if get_seconds t % 4 = 0 then format_ss t ++ axisSpec (t + 2) n
    else ' ' :: axisSpec (t + 1) (n + 1)

/-! ## Claim C2 — delta derivation and counter resets -/

/-- C2: the derived receive magnitude for consecutive counter readings 100
then 150 is 50, as claimed; but when the counter decreases (reset), the
`uint64_t` subtraction `sample.rx - prev_sample.rx` wraps around and the
value fed into the TimeSeries is the underflowed magnitude
`2^64 - 50 = 18446744073709551566`, not any "unknown delta" treatment — the
code contradicts the spec's stated intent here. -/
theorem delta_reset_underflow :
    u64_sub 150 100 = 50 ∧
    u64_sub 100 150 = 2 ^ 64 - 50 ∧
    u64_sub 100 150 = 18446744073709551566 := by
  decide

/-! ## Claim C6 — keyboard handling in the driver loop -/

/-- C6: for every byte read from stdin, `'r'` (114) immediately returns the
`DISPLAY_RX` state, `'t'` (116) immediately returns `DISPLAY_TX`, newline
(10) performs one surface redraw and otherwise leaves the result to the
remaining input, any other ASCII byte is skipped with no effect, and a byte
`>= 128` (negative as `char`) ends the poll round with no state or surface
effect. -/
theorem read_input_keymap (rest : List Nat) (b : Nat) :
    read_input (114 :: rest) = (some DisplayMode.DISPLAY_RX, 0) ∧
    read_input (116 :: rest) = (some DisplayMode.DISPLAY_TX, 0) ∧
    read_input (10 :: rest) = ((read_input rest).1, (read_input rest).2 + 1) ∧
    (b % 256 < 128 → b % 256 ≠ 10 → b % 256 ≠ 114 → b % 256 ≠ 116 →
      read_input (b :: rest) = read_input rest) ∧
    (128 ≤ b % 256 → read_input (b :: rest) = (none, 0)) := by
  refine ⟨by simp [read_input], by simp [read_input], by simp [read_input], ?_, ?_⟩
  · intro h1 h2 h3 h4
    show read_input (b :: rest) = read_input rest
    simp only [read_input]
    rw [if_neg (by omega), if_neg h2, if_neg h3, if_neg h4]
  · intro h
    show read_input (b :: rest) = (none, 0)
    simp only [read_input]
    rw [if_pos h]

/-- Witness for C6 at concrete inputs: the byte `'x'` (120) is ignored and a
high byte (200) ends the round with no effect. -/
theorem read_input_keymap_witness :
    read_input [120] = read_input [] ∧ read_input [200] = (none, 0) :=
  ⟨(read_input_keymap [] 120).2.2.2.1 (by decide) (by decide) (by decide) (by decide),
   (read_input_keymap [] 200).2.2.2.2 (by decide)⟩

/-! ## Claim C9 — exit statuses -/

/-- C9: with the interface argument present, the interrupt-driven unwind
exits with status 0; a missing argument exits nonzero whatever `run` would
have done; and any unrecovered failure (a trapped `std::exception` or the
last-resort catch-all) exits nonzero. -/
theorem main_exit_codes (args : List String) (outcome : RunOutcome) :
    (2 ≤ args.length → mainExit args RunOutcome.interrupted = 0) ∧
    (args.length < 2 → mainExit args outcome ≠ 0) ∧
    (2 ≤ args.length → mainExit args RunOutcome.exceptionFailure ≠ 0 ∧
      mainExit args RunOutcome.unknownFailure ≠ 0) := by
  refine ⟨?_, ?_, ?_⟩
  · intro h
    simp [mainExit, show ¬args.length < 2 by omega]
  · intro h
    simp [mainExit, h]
  · intro h
    simp [mainExit, show ¬args.length < 2 by omega]

/-- Witness for C9 at concrete inputs. -/
theorem main_exit_codes_witness :
    mainExit ["bmon", "eth0"] RunOutcome.interrupted = 0 ∧
    mainExit ["bmon"] RunOutcome.normal ≠ 0 ∧
    mainExit ["bmon", "eth0"] RunOutcome.exceptionFailure ≠ 0 ∧
    mainExit ["bmon", "eth0"] RunOutcome.unknownFailure ≠ 0 :=
  ⟨(main_exit_codes ["bmon", "eth0"] RunOutcome.interrupted).1 (by decide),
   (main_exit_codes ["bmon"] RunOutcome.normal).2.1 (by decide),
   ((main_exit_codes ["bmon", "eth0"] RunOutcome.normal).2.2 (by decide)).1,
   ((main_exit_codes ["bmon", "eth0"] RunOutcome.normal).2.2 (by decide)).2⟩

/-! ## Claim C5 — time-axis tick layout -/

/-- C5 counterexample: for the point sequence `[4, 8, 3, 3]` the timestamp
with seconds 8 sits at column 1, its seconds-of-minute is divisible by 4 and
two more columns remain to its right, yet the axis line is `"04  "`: columns
1-2 do not carry the two-digit tick `"08"` (column 1 was consumed by the
preceding tick), so the claim read over arbitrary point sequences fails. -/
theorem format_xaxis_swallowed_tick :
    format_xaxis [4, 8, 3, 3] = ['0', '4', ' ', ' '] ∧
    ((format_xaxis [4, 8, 3, 3]).drop 1).take 2 ≠ format_ss 8 := by
  decide

lemma secondsSeq_length (n t : Nat) : (secondsSeq t n).length = n := by
  induction n generalizing t with
  | zero => rfl
  | succ m ih => simp [secondsSeq, ih]

lemma xaxisGo_skip (x : Nat) (rest : List Nat) : xaxisGo 1 (x :: rest) = xaxisGo 0 rest := rfl

lemma xaxisGo_cons (tp : Nat) (rest : List Nat) :
    xaxisGo 0 (tp :: rest) =
      if get_seconds tp % 4 = 0 ∧ 1 ≤ rest.length then format_ss tp ++ xaxisGo 1 rest
      else ' ' :: xaxisGo 0 rest := rfl

lemma axisSpec_two (t m : Nat) :
    axisSpec t (m + 2) =
      if get_seconds t % 4 = 0 then format_ss t ++ axisSpec (t + 2) m
      else ' ' :: axisSpec (t + 1) (m + 1) := rfl

lemma xaxisGo_secondsSeq : ∀ n t, xaxisGo 0 (secondsSeq t n) = axisSpec t n := by
  intro n
  induction n using Nat.strong_induction_on with
  | _ n ih =>
    match n with
    | 0 => intro t; rfl
    | 1 =>
      intro t
      rw [show secondsSeq t 1 = [t] from rfl, xaxisGo_cons]
      rw [if_neg (by simp)]
      rfl
    | m + 2 =>
      intro t
      rw [show secondsSeq t (m + 2) = t :: secondsSeq (t + 1) (m + 1) from rfl, xaxisGo_cons,
        axisSpec_two]
      by_cases h : get_seconds t % 4 = 0
      · rw [if_pos ⟨h, by rw [secondsSeq_length]; omega⟩, if_pos h]
        rw [show secondsSeq (t + 1) (m + 1) = (t + 1) :: secondsSeq (t + 2) m from rfl,
          xaxisGo_skip]
        rw [ih m (by omega) (t + 2)]
      · rw [if_neg (fun hc => h hc.1), if_neg h]
        rw [ih (m + 1) (by omega) (t + 1)]

lemma axisSpec_length : ∀ n t, (axisSpec t n).length = n := by
  intro n
  induction n using Nat.strong_induction_on with
  | _ n ih =>
    match n with
    | 0 => intro t; rfl
    | 1 => intro t; rfl
    | m + 2 =>
      intro t
      rw [axisSpec_two]
      by_cases h : get_seconds t % 4 = 0
      · rw [if_pos h]
        simp [format_ss, ih m (by omega) (t + 2)]
      · rw [if_neg h]
        simp [ih (m + 1) (by omega) (t + 1)]

/-- C5 (amended to the driver's actual usage — one column per second, i.e.
consecutive per-second timestamps): `format_xaxis` produces the axis line in
which every timestamp whose seconds-of-minute is divisible by 4 prints its
two-digit zero-padded seconds value at its column provided at least one
column remains to its right, the tick consuming two character cells (its own
column and the following one, which receives no output of its own), and every
other column is a single blank (`axisSpec` is that description verbatim);
the line has exactly one character cell per column. -/
theorem format_xaxis_consecutive_ticks (t n : Nat) :
    format_xaxis (secondsSeq t n) = axisSpec t n ∧ (axisSpec t n).length = n :=
  ⟨xaxisGo_secondsSeq n t, axisSpec_length n t⟩

/-! ## Claim C4 — key derivation round-trip -/

/-- C4: for every valid timestamp — one whose elapsed time since the start
epoch still falls inside the ring's `capacity` interval windows, so that the
`mod capacity` in the key derivation has not wrapped — composing the
timestamp-to-index derivation with its index-to-timestamp inverse lands
exactly on the floor of `t` to its interval boundary: the start of the same
interval window that contains `t`. -/
theorem calculate_key_round_trip (ts : TimeSeries) (t : Nat)
    (hi : 0 < ts.interval) (_hc : 0 < ts.capacity)
    (h1 : ts.start ≤ t) (h2 : t < ts.start + ts.capacity * ts.interval) :
    ts.calculate_key_inv (ts.calculate_key t)
        = ts.start + (t - ts.start) / ts.interval * ts.interval ∧
    ts.calculate_key_inv (ts.calculate_key t) ≤ t ∧
    t < ts.calculate_key_inv (ts.calculate_key t) + ts.interval := by
  have hlt : (t - ts.start) / ts.interval < ts.capacity := by
    apply Nat.div_lt_of_lt_mul
    rw [Nat.mul_comm]
    omega
  have hkey : ts.calculate_key t = (t - ts.start) / ts.interval := by
    unfold TimeSeries.calculate_key
    exact Nat.mod_eq_of_lt hlt
  rw [hkey]
  unfold TimeSeries.calculate_key_inv
  refine ⟨rfl, ?_, ?_⟩
  · have h5 := Nat.div_mul_le_self (t - ts.start) ts.interval
    omega
  · have h6 := Nat.div_add_mod (t - ts.start) ts.interval
    have h7 : (t - ts.start) % ts.interval < ts.interval := Nat.mod_lt _ hi
    rw [Nat.mul_comm ts.interval ((t - ts.start) / ts.interval)] at h6
    omega

/-- Witness for C4 at a concrete time series (interval 1000 ms, start epoch
500 ms, capacity 60) and timestamp 3700: the round trip yields 3500, the
start of the window containing 3700. -/
theorem calculate_key_round_trip_witness :
    (TimeSeries.new 1000 500 60).calculate_key_inv
        ((TimeSeries.new 1000 500 60).calculate_key 3700)
      = (TimeSeries.new 1000 500 60).start
          + (3700 - (TimeSeries.new 1000 500 60).start) / (TimeSeries.new 1000 500 60).interval
            * (TimeSeries.new 1000 500 60).interval ∧
    (TimeSeries.new 1000 500 60).calculate_key_inv
        ((TimeSeries.new 1000 500 60).calculate_key 3700) ≤ 3700 ∧
    3700 < (TimeSeries.new 1000 500 60).calculate_key_inv
        ((TimeSeries.new 1000 500 60).calculate_key 3700)
          + (TimeSeries.new 1000 500 60).interval :=
  calculate_key_round_trip (TimeSeries.new 1000 500 60) 3700
    (by decide) (by decide) (by decide) (by decide)

/-! ## Ring-buffer state after sequential writes (shared by C1 and C8) -/

@[simp] lemma TimeSeries.new_interval (i s c : Nat) : (TimeSeries.new i s c).interval = i := rfl

@[simp] lemma TimeSeries.new_start (i s c : Nat) : (TimeSeries.new i s c).start = s := rfl

@[simp] lemma TimeSeries.new_capacity (i s c : Nat) : (TimeSeries.new i s c).capacity = c := rfl

@[simp] lemma TimeSeries.new_lastPos (i s c : Nat) : (TimeSeries.new i s c).lastPos = 0 := rfl

lemma TimeSeries.set_fields (ts : TimeSeries) (tp x : Nat) :
    (ts.set tp x).interval = ts.interval ∧ (ts.set tp x).start = ts.start ∧
    (ts.set tp x).capacity = ts.capacity :=
  ⟨rfl, rfl, rfl⟩

lemma writeSeq_interval (ts : TimeSeries) (v : Nat → Nat) (k : Nat) :
    (writeSeq ts v k).interval = ts.interval := by
  induction k with
  | zero => rfl
  | succ m ih => simp [writeSeq, TimeSeries.set, TimeSeries.set_key, ih]

lemma writeSeq_start (ts : TimeSeries) (v : Nat → Nat) (k : Nat) :
    (writeSeq ts v k).start = ts.start := by
  induction k with
  | zero => rfl
  | succ m ih => simp [writeSeq, TimeSeries.set, TimeSeries.set_key, ih]

lemma writeSeq_capacity (ts : TimeSeries) (v : Nat → Nat) (k : Nat) :
    (writeSeq ts v k).capacity = ts.capacity := by
  induction k with
  | zero => rfl
  | succ m ih => simp [writeSeq, TimeSeries.set, TimeSeries.set_key, ih]

/-- State of a fresh ring after `j ≤ capacity` sequential interval-aligned
writes: the write position is `j - 1` and slot `p` holds `v p` for `p < j`
and the default zero otherwise. -/
lemma writeSeq_state (i s c : Nat) (v : Nat → Nat) (hi : 0 < i) :
    ∀ j, j ≤ c →
      (writeSeq (TimeSeries.new i s c) v j).lastPos = j - 1 ∧
      ∀ p, (writeSeq (TimeSeries.new i s c) v j).storage p = if p < j then v p else 0 := by
  intro j
  induction j with
  | zero =>
    intro _
    exact ⟨rfl, fun p => by simp [writeSeq, TimeSeries.new]⟩
  | succ k ihj =>
    intro hj
    obtain ⟨hlp, hst⟩ := ihj (by omega)
    have hkey : (writeSeq (TimeSeries.new i s c) v k).calculate_key (s + k * i) = k := by
      unfold TimeSeries.calculate_key
      rw [writeSeq_start, writeSeq_interval, writeSeq_capacity,
        TimeSeries.new_start, TimeSeries.new_interval, TimeSeries.new_capacity]
      have e1 : s + k * i - s = k * i := by omega
      rw [e1, Nat.mul_div_cancel _ hi]
      exact Nat.mod_eq_of_lt (by omega)
    have hw : writeSeq (TimeSeries.new i s c) v (k + 1)
        = (writeSeq (TimeSeries.new i s c) v k).set (s + k * i) (v k) := rfl
    rw [hw]
    constructor
    · have : ((writeSeq (TimeSeries.new i s c) v k).set (s + k * i) (v k)).lastPos
          = (writeSeq (TimeSeries.new i s c) v k).calculate_key (s + k * i) := rfl
      rw [this, hkey]
      omega
    · intro p
      have hsto : ((writeSeq (TimeSeries.new i s c) v k).set (s + k * i) (v k)).storage p
          = if p = (writeSeq (TimeSeries.new i s c) v k).calculate_key (s + k * i) then v k
            else (writeSeq (TimeSeries.new i s c) v k).storage p := rfl
      rw [hsto, hkey, hst p]
      by_cases hp : p = k
      · subst hp
        simp
      · rw [if_neg hp]
        by_cases hpk : p < k
        · rw [if_pos hpk, if_pos (by omega)]
        · rw [if_neg hpk, if_neg (by omega)]

/-! ## Claim C8 — slice padding with zeros -/

/-- C8: `get_slice_from_end N` on a freshly constructed TimeSeries returns
exactly `N` zeros; and more generally, after only `j` of the ring's slots
have ever been written (sequential interval-aligned writes, `j ≤ len ≤
capacity`), the slice of length `len` consists of `len - j` leading zeros
followed by the `j` written values, oldest first. -/
theorem slice_zero_padding (i s c N : Nat) (v : Nat → Nat) (j len : Nat)
    (hi : 0 < i) (hj : j ≤ len) (hl : len ≤ c) :
    (TimeSeries.new i s c).get_slice_from_end N = List.replicate N 0 ∧
    (writeSeq (TimeSeries.new i s c) v j).get_slice_from_end len
      = List.replicate (len - j) 0 ++ (List.range j).map v := by
  constructor
  · unfold TimeSeries.get_slice_from_end
    apply List.ext_getElem
    · simp
    · intro idx h1 h2
      simp [TimeSeries.new]
  · obtain ⟨hlp, hst⟩ := writeSeq_state i s c v hi j (by omega)
    unfold TimeSeries.get_slice_from_end
    apply List.ext_getElem
    · simp
      omega
    · intro idx h1 h2
      have hidx : idx < len := by simpa using h1
      simp only [List.getElem_map, List.getElem_range]
      rw [writeSeq_capacity, hlp, hst, TimeSeries.new_capacity]
      by_cases hj0 : j = 0
      · subst hj0
        simp
      · have e1 : c * (len + 1) = c * len + c := by ring
        rw [e1]
        by_cases hcase : idx < len - j
        · have e2 : j - 1 + (c * len + c) + 1 + idx - len = c + j + idx - len + c * len := by
            omega
          rw [e2, Nat.add_mul_mod_self_left,
            Nat.mod_eq_of_lt (show c + j + idx - len < c by omega),
            if_neg (show ¬c + j + idx - len < j by omega)]
          rw [List.getElem_append_left (by simpa using hcase)]
          simp
        · have e2 : j - 1 + (c * len + c) + 1 + idx - len = j + idx - len + c * len + c := by
            omega
          rw [e2, Nat.add_mod_right, Nat.add_mul_mod_self_left,
            Nat.mod_eq_of_lt (show j + idx - len < c by omega),
            if_pos (show j + idx - len < j by omega)]
          rw [List.getElem_append_right (by simpa using hcase)]
          simp only [List.getElem_map, List.getElem_range, List.length_replicate]
          congr 1
          omega

/-- Witness for C8 at a concrete ring (interval 1, start 0, capacity 5):
the fresh slice of length 4 is four zeros, and after 2 writes (values 100 and
101) the slice of length 3 is `[0, 100, 101]`. -/
theorem slice_zero_padding_witness :
    (TimeSeries.new 1 0 5).get_slice_from_end 4 = List.replicate 4 0 ∧
    (writeSeq (TimeSeries.new 1 0 5) (fun k => k + 100) 2).get_slice_from_end 3
      = List.replicate 1 0 ++ (List.range 2).map (fun k => k + 100) :=
  slice_zero_padding 1 0 5 4 (fun k => k + 100) 2 3 (by decide) (by decide) (by decide)

/-! ## Claim C1 — fixed capacity and ring overwrite -/

/-- C1: `set` never changes a TimeSeries's capacity (the ring is never
resized), and writing `capacity + 1` distinct sequential keys (values
`v 0 .. v capacity`, one interval apart) wraps the ring: the oldest write
`v 0` is unobservable and `get_slice_from_end capacity` returns exactly the
newest `capacity` writes `v 1 .. v capacity`, oldest first. -/
theorem time_series_ring_overwrite (i s c : Nat) (v : Nat → Nat)
    (hi : 0 < i) (hc : 0 < c) :
    (∀ (ts : TimeSeries) (tp x : Nat), (ts.set tp x).capacity = ts.capacity) ∧
    (writeSeq (TimeSeries.new i s c) v (c + 1)).get_slice_from_end c
      = (List.range c).map (fun k => v (k + 1)) := by
  refine ⟨fun ts tp x => rfl, ?_⟩
  obtain ⟨hlp, hst⟩ := writeSeq_state i s c v hi c (le_refl c)
  have hkey : (writeSeq (TimeSeries.new i s c) v c).calculate_key (s + c * i) = 0 := by
    unfold TimeSeries.calculate_key
    rw [writeSeq_start, writeSeq_interval, writeSeq_capacity,
      TimeSeries.new_start, TimeSeries.new_interval, TimeSeries.new_capacity]
    have e1 : s + c * i - s = c * i := by omega
    rw [e1, Nat.mul_div_cancel _ hi, Nat.mod_self]
  have hw : writeSeq (TimeSeries.new i s c) v (c + 1)
      = (writeSeq (TimeSeries.new i s c) v c).set (s + c * i) (v c) := rfl
  rw [hw]
  unfold TimeSeries.get_slice_from_end
  apply List.ext_getElem
  · simp
  · intro idx h1 h2
    have hidx : idx < c := by simpa using h1
    simp only [List.getElem_map, List.getElem_range]
    have hcap : ((writeSeq (TimeSeries.new i s c) v c).set (s + c * i) (v c)).capacity = c := by
      rw [(TimeSeries.set_fields _ _ _).2.2, writeSeq_capacity, TimeSeries.new_capacity]
    have hl0 : ((writeSeq (TimeSeries.new i s c) v c).set (s + c * i) (v c)).lastPos
        = (writeSeq (TimeSeries.new i s c) v c).calculate_key (s + c * i) := rfl
    have hlp2 : ((writeSeq (TimeSeries.new i s c) v c).set (s + c * i) (v c)).lastPos = 0 := by
      rw [hl0, hkey]
    have hsto : ∀ p, ((writeSeq (TimeSeries.new i s c) v c).set (s + c * i) (v c)).storage p
        = if p = 0 then v c else if p < c then v p else 0 := by
      intro p
      have hs0 : ((writeSeq (TimeSeries.new i s c) v c).set (s + c * i) (v c)).storage p
          = if p = (writeSeq (TimeSeries.new i s c) v c).calculate_key (s + c * i) then v c
            else (writeSeq (TimeSeries.new i s c) v c).storage p := rfl
      rw [hs0, hkey, hst p]
    rw [hcap, hlp2, hsto]
    have e1 : c * (c + 1) = c * c + c := by ring
    rw [e1]
    have e2 : 0 + (c * c + c) + 1 + idx - c = 1 + idx + c * c := by omega
    rw [e2, Nat.add_mul_mod_self_left]
    by_cases hlast : idx = c - 1
    · have e3 : (1 + idx) % c = 0 := by
        have e4 : 1 + idx = c := by omega
        rw [e4, Nat.mod_self]
      rw [e3, if_pos rfl]
      congr 1
      omega
    · have hlt : 1 + idx < c := by omega
      rw [Nat.mod_eq_of_lt hlt, if_neg (by omega), if_pos hlt]
      congr 1
      omega

/-- Witness for C1 at a concrete ring (interval 1, start 0, capacity 3) and
values `v k = k + 100`: after 4 sequential writes the slice of length 3 is
`[101, 102, 103]` — the oldest write 100 is gone, the newest three intact. -/
theorem time_series_ring_overwrite_witness :
    (writeSeq (TimeSeries.new 1 0 3) (fun k => k + 100) (3 + 1)).get_slice_from_end 3
      = (List.range 3).map (fun k => k + 1 + 100) :=
  (time_series_ring_overwrite 1 0 3 (fun k => k + 100) (by decide) (by decide)).2

/-! ## Formatter lemmas (shared by C3, C7, C10) -/

lemma shiftRight_eq_zero {n e : Nat} (h : n < 2 ^ e) : n >>> e = 0 := by
  rw [Nat.shiftRight_eq_div_pow]
  exact Nat.div_eq_of_lt h

lemma shiftRight_pos {n e : Nat} (h : 2 ^ e ≤ n) : 0 < n >>> e := by
  rw [Nat.shiftRight_eq_div_pow]
  exact Nat.div_pos h (Nat.pos_pow_of_pos e (by omega))

lemma setw4_length (s : String) : 4 ≤ (setw4 s).length := by
  show 4 ≤ (List.replicate (4 - s.length) ' ' ++ s.data).length
  rw [List.length_append, List.length_replicate]
  have hd : s.data.length = s.length := rfl
  omega

/-! ## Claim C3 — truncation (not rounding) of fractional displays -/

/-- C3: whenever the fractional component is nonzero, the displayed numeric
field is an initial segment (a `take`-prefix) of the exact fixed-point
rendering — digits are cut off, never rounded up; in particular a
reconstructed magnitude of 12.345 (input 12633 at unit Kb) displays as
`"12.3"`, 123.456 (input 126408) as `"123"` with no decimals, and 1023.45
(input 1048002) as `"1023"`. -/
theorem format_truncates (ip dp : Nat) (hdp : dp ≠ 0) :
    (∃ k, (displayNum ip dp).data = ((fixed3 ip dp).data).take k) ∧
    format_num_byte_rate 12633 "s" = "12.3 Kb/s" ∧
    format_num_byte_rate 126408 "s" = " 123 Kb/s" ∧
    format_num_byte_rate 1048002 "s" = "1023 Kb/s" := by
  refine ⟨?_, by decide, by decide, by decide⟩
  simp only [displayNum, if_neg hdp]
  by_cases h1 : 1000000 ≤ ip * 1000 + dp
  · rw [if_pos h1]
    exact ⟨4, rfl⟩
  · rw [if_neg h1]
    by_cases h2 : 100000 ≤ ip * 1000 + dp
    · rw [if_pos h2]
      exact ⟨3, rfl⟩
    · rw [if_neg h2]
      exact ⟨4, rfl⟩

/-- Witness for C3 at the concrete fractional pair 12.345 (integer part 12,
base-1000 fractional component 345). -/
theorem format_truncates_witness :
    (∃ k, (displayNum 12 345).data = ((fixed3 12 345).data).take k) ∧
    format_num_byte_rate 12633 "s" = "12.3 Kb/s" ∧
    format_num_byte_rate 126408 "s" = " 123 Kb/s" ∧
    format_num_byte_rate 1048002 "s" = "1023 Kb/s" :=
  format_truncates 12 345 (by decide)

/-! ## Claim C7 — output shape, alignment and unit selection -/

/-- C7: the formatted byte rate is always `"<value> <unit>/<time-unit>"`
with the numeric field right-aligned to a minimum width of 4 characters and
the unit the largest binary-scaled one (1024 per step) whose integer part is
nonzero; `0` formats as `"   0 b/<tu>"` (unit `b`, no fraction) and `1024`
as `"   1 Kb/<tu>"` (value `1` at unit `Kb`). -/
theorem format_byte_rate_shape (tu : String) (num : Nat) :
    format_num_byte_rate 0 tu = "   0 b/" ++ tu ∧
    format_num_byte_rate 1024 tu = "   1 Kb/" ++ tu ∧
    ∃ val : String, 4 ≤ val.length ∧
      format_num_byte_rate num tu = val ++ " " ++ unitOfMagnitude num ++ "/" ++ tu := by
  refine ⟨?_, ?_, ?_⟩
  · have e0 : format_num_byte_rate 0 tu
        = setw4 (displayNum 0 0) ++ " " ++ "b" ++ "/" ++ tu := rfl
    rw [e0, show setw4 (displayNum 0 0) ++ " " ++ "b" ++ "/" = "   0 b/" from by decide]
  · have e1 : format_num_byte_rate 1024 tu
        = setw4 (displayNum 1 0) ++ " " ++ "Kb" ++ "/" ++ tu := rfl
    rw [e1, show setw4 (displayNum 1 0) ++ " " ++ "Kb" ++ "/" = "   1 Kb/" from by decide]
  · have hu : (pickUnit unitsDesc num).2.2 = unitOfMagnitude num := by
      rcases le_or_lt (2 ^ 40) num with h40 | h40
      · unfold unitOfMagnitude
        rw [if_pos h40]
        simp only [pickUnit, unitsDesc]
        rw [if_pos (shiftRight_pos h40)]
      · rcases le_or_lt (2 ^ 30) num with h30 | h30
        · unfold unitOfMagnitude
          rw [if_neg (by omega), if_pos h30]
          simp only [pickUnit, unitsDesc]
          rw [if_neg (by simp [shiftRight_eq_zero h40]), if_pos (shiftRight_pos h30)]
        · rcases le_or_lt (2 ^ 20) num with h20 | h20
          · unfold unitOfMagnitude
            rw [if_neg (by omega), if_neg (by omega), if_pos h20]
            simp only [pickUnit, unitsDesc]
            rw [if_neg (by simp [shiftRight_eq_zero h40]),
              if_neg (by simp [shiftRight_eq_zero h30]), if_pos (shiftRight_pos h20)]
          · rcases le_or_lt (2 ^ 10) num with h10 | h10
            · unfold unitOfMagnitude
              rw [if_neg (by omega), if_neg (by omega), if_neg (by omega), if_pos h10]
              simp only [pickUnit, unitsDesc]
              rw [if_neg (by simp [shiftRight_eq_zero h40]),
                if_neg (by simp [shiftRight_eq_zero h30]),
                if_neg (by simp [shiftRight_eq_zero h20]), if_pos (shiftRight_pos h10)]
            · unfold unitOfMagnitude
              rw [if_neg (by omega), if_neg (by omega), if_neg (by omega), if_neg (by omega)]
              simp only [pickUnit, unitsDesc]
              rw [if_neg (by simp [shiftRight_eq_zero h40]),
                if_neg (by simp [shiftRight_eq_zero h30]),
                if_neg (by simp [shiftRight_eq_zero h20]),
                if_neg (by simp [shiftRight_eq_zero h10])]
              rw [Nat.shiftRight_zero]
              rcases Nat.eq_zero_or_pos num with h0 | h0
              · subst h0
                rfl
              · rw [if_pos h0]
    refine ⟨setw4 (displayNum (pickUnit unitsDesc num).1 (pickUnit unitsDesc num).2.1),
      setw4_length _, ?_⟩
    have eq1 : format_num_byte_rate num tu
        = setw4 (displayNum (pickUnit unitsDesc num).1 (pickUnit unitsDesc num).2.1)
          ++ " " ++ (pickUnit unitsDesc num).2.2 ++ "/" ++ tu := rfl
    rw [eq1, hu]

/-! ## Claim C10 — sub-kilobyte magnitudes print exactly, with no fraction -/

/-- C10: for `1 ≤ num ≤ 1023` the byte unit is selected and, because the
fractional component is only computed for units whose scale exponent is at
least 10, the decimal part stays zero: the output is the exact decimal
integer (right-aligned to width 4) with unit `b` and no fractional digits. -/
theorem format_small_magnitudes (num : Nat) (h1 : 1 ≤ num) (h2 : num ≤ 1023) (tu : String) :
    format_num_byte_rate num tu = setw4 (toString num) ++ " " ++ "b" ++ "/" ++ tu ∧
    (pickUnit unitsDesc num).2.1 = 0 := by
  have hlt : ∀ e : Nat, 10 ≤ e → num >>> e = 0 := by
    intro e he
    apply shiftRight_eq_zero
    calc num ≤ 1023 := h2
      _ < 2 ^ 10 := by norm_num
      _ ≤ 2 ^ e := Nat.pow_le_pow_right (by omega) he
  have hp : pickUnit unitsDesc num = (num, 0, "b") := by
    simp [pickUnit, unitsDesc, hlt 40 (by omega), hlt 30 (by omega), hlt 20 (by omega),
      hlt 10 (by omega), Nat.shiftRight_zero, show 0 < num by omega]
  constructor
  · have eq1 : format_num_byte_rate num tu
        = setw4 (displayNum (pickUnit unitsDesc num).1 (pickUnit unitsDesc num).2.1)
          ++ " " ++ (pickUnit unitsDesc num).2.2 ++ "/" ++ tu := rfl
    rw [eq1, hp]
    rfl
  · rw [hp]

/-- Witness for C10 at the concrete magnitude 7. -/
theorem format_small_magnitudes_witness :
    format_num_byte_rate 7 "s" = setw4 (toString 7) ++ " " ++ "b" ++ "/" ++ "s" ∧
    (pickUnit unitsDesc 7).2.1 = 0 :=
  format_small_magnitudes 7 (by decide) (by decide) "s"

end Bmon
